import Mathlib

/-!
Verification development for the droid2api gateway.

The definitions below are a shallow embedding of the repository's JavaScript
source: `auth.js` (credential pool and rotation state machine), `routes.js`
(the resilient dispatcher `fetchWithFallback`, the non-streaming normalizer
`convertResponseToChatCompletion`, and the per-endpoint request modification
pipelines), and `transformers/response-openai.js` (the streaming
`OpenAIResponseTransformer`).  JavaScript module-level mutable state is made
explicit as state values threaded through the functions; network fetches are
modelled by a function from the attempt number to the upstream response;
`Date.now()` is an explicit `now : Nat` parameter.
-/

namespace Droid2Api

/-! ## Credential pool (auth.js)

`auth.js` keeps three module-level variables for factory-key rotation:
`currentKeyIndex`, `startingKeyIndex` and `hasCompletedFullCycle`.  They are
bundled here into a `RotState`.  The pool itself is the list `factoryApiKeys`;
the functions below take the pool (or just its length `n`) as a parameter.
All functions model the `authSource === 'factory_key'` mode, which is the mode
in which every rotation-related claim lives. -/

structure RotState where
  currentKeyIndex : Nat
  startingKeyIndex : Nat
  hasCompletedFullCycle : Bool
  deriving DecidableEq, Repr

/-- Startup state: `loadAuthConfig` (auth.js lines 68-105) pushes the up-to-7 non-empty
`FACTORY_API_KEY*` environment values into `factoryApiKeys` and sets
`currentKeyIndex = 0`; `startingKeyIndex` and `hasCompletedFullCycle` start at
their module initializers `0` and `false`. -/
def loadAuthConfigState : RotState := ⟨0, 0, false⟩

/-- Maximal pool size: `loadAuthConfig` reads exactly the seven environment
variables `FACTORY_API_KEY` .. `FACTORY_API_KEY_7`. -/
def maxFactoryKeys : Nat := 7

/-- Embeds `startNewRotationCycle` (auth.js lines 381-384). -/
def startNewRotationCycle (st : RotState) : RotState :=
  { st with startingKeyIndex := st.currentKeyIndex, hasCompletedFullCycle := false }

/-- Embeds `rotateFactoryApiKey` (auth.js lines 338-365), in factory-key mode with a
pool of `n` keys.  Returns the JS boolean result together with the updated
state. -/
def rotateFactoryApiKey (n : Nat) (st : RotState) : Bool × RotState :=
  if n ≤ 1 then (false, st)
  else
    let nextIndex := (st.currentKeyIndex + 1) % n
    if nextIndex = st.startingKeyIndex then
      (false, { st with hasCompletedFullCycle := true })
    else
      (true, { st with currentKeyIndex := nextIndex })

/-- Embeds `hasMoreFactoryKeys` (auth.js lines 370-376), in factory-key mode with a
pool of `n` keys. -/
def hasMoreFactoryKeys (n : Nat) (st : RotState) : Bool :=
  if n ≤ 1 then false else !st.hasCompletedFullCycle

/-- Embeds `getApiKey` (auth.js lines 301-307), factory-key branch: returns
`Bearer ${factoryApiKeys[currentKeyIndex]}`.  JS out-of-range indexing would
give `undefined`; it is modelled by `getD` with `""`, and the invariant
theorems show the index is always in range. -/
def getApiKey (keys : List String) (st : RotState) : String :=
  "Bearer " ++ keys.getD st.currentKeyIndex ""

/-- Modelled from the spec: `didRotationOccur` is imported by `routes.js`
(line 10) from `./auth.js` and called on the dispatcher's success path, but
its definition is absent from the sources under `src/`.  Per spec sections 2
and 4.2 a rotation has occurred within the current cycle exactly when the
active index has moved away from the cycle start, or the cycle was exhausted
(rotation refuses to move back onto `cycleStartIndex`, setting the exhausted
flag instead). -/
def didRotationOccur (st : RotState) : Bool :=
  decide (st.currentKeyIndex ≠ st.startingKeyIndex) || st.hasCompletedFullCycle

/-! ## Resilient dispatcher (routes.js, `fetchWithFallback`) -/

/-- Embeds `isQuotaOrAuthError` (routes.js lines 19-21). -/
def isQuotaOrAuthError (statusCode : Nat) : Bool :=
  statusCode = 429 || statusCode = 401 || statusCode = 403 || statusCode = 402

/-- An upstream HTTP response as the dispatcher sees it: status code, body
text, and whether its body stream has been consumed. -/
structure Response where
  status : Nat
  body : String
  bodyUsed : Bool
  deriving DecidableEq, Repr

/-- A fresh `fetch` result: its body is not yet consumed. -/
def mkResponse (sb : Nat × String) : Response :=
  ⟨sb.1, sb.2, false⟩

/-- The loop of `fetchWithFallback` (routes.js lines 38-106).  One fuel unit
is one iteration of the `while (attempt <= maxAttempts)` loop; `attemptIdx` is
the 0-based attempt number (the JS `attempt` minus one) and indexes the
upstream behaviour `upstream : Nat → Nat × String` (status and body of the
fetch performed on that attempt).  `tried` records, for specification
purposes, the pool index active on each attempt, and the final `RotState` is
returned alongside the response; the JS code instead mutates module state in
`auth.js`.  On a quota/auth failure the code clones the response and reads
the clone's text for logging, leaving the original body unconsumed; on the
success path it consults `didRotationOccur` purely for the fallback-success
log.  `none` models the `throw` after the loop exhausts `maxAttempts`. -/
def fetchWithFallbackLoop (n : Nat) (upstream : Nat → Nat × String) :
    Nat → Nat → RotState → List Nat → Option (List Nat × RotState × Response)
  | 0, _, _, _ => none
  | fuel + 1, attemptIdx, st, tried =>
    let response := mkResponse (upstream attemptIdx)
    let tried1 := tried ++ [st.currentKeyIndex]
    if isQuotaOrAuthError response.status then
      -- const responseClone = response.clone(); await responseClone.text()
      -- (consumes only the clone; `response` itself keeps bodyUsed = false)
      if hasMoreFactoryKeys n st then
        let rotated := rotateFactoryApiKey n st
        if rotated.1 then
          -- fetchOptions.headers.authorization = await getApiKey(); retry
          fetchWithFallbackLoop n upstream fuel (attemptIdx + 1) rotated.2 tried1
        else
          some (tried1, rotated.2, response)
      else
        some (tried1, st, response)
    else
      -- success: `if (didRotationOccur()) { ...log fallback success... }`
      some (tried1, st, response)

/-- The attempt cap `maxAttempts` (routes.js line 33). -/
def maxAttempts : Nat := 10

/-- Embeds `fetchWithFallback` (routes.js lines 30-110): starts a new rotation cycle
and runs the attempt loop. -/
def fetchWithFallback (n : Nat) (upstream : Nat → Nat × String) (st : RotState) :
    Option (List Nat × RotState × Response) :=
  fetchWithFallbackLoop n upstream maxAttempts 0 (startNewRotationCycle st) []

/-! ## JavaScript truthiness helpers

JS `a || b` on an optional string: a missing value and the empty string are
falsy.  JS `a ?? b` (nullish coalescing, used for the usage counts) keeps `0`
and is plain `Option.getD`. -/

/-- The JS expression `a || b` for an optional string `a`. -/
def jsOr (a : Option String) (b : String) : String :=
  match a with
  | some s => if s = "" then b else s
  | none => b

/-- The JS expression `a || b` for an optional number `a` (`0` is falsy). -/
def jsOrNat (a : Option Nat) (b : Nat) : Nat :=
  match a with
  | some v => if v = 0 then b else v
  | none => b

/-! ## Non-streaming normalizer (routes.js, `convertResponseToChatCompletion`)

The vendor `/v1/responses` JSON object is modelled by `RespObj`, keeping
exactly the fields the function reads; every field is optional since the
input is untrusted JSON.  `Date.now()` is the explicit parameter `now`
(milliseconds). -/

structure ContentBlock where
  type : String
  text : String
  deriving DecidableEq, Repr

structure OutputItem where
  type : String
  role : Option String
  content : Option (List ContentBlock)
  deriving DecidableEq, Repr

structure UsageObj where
  input_tokens : Option Nat
  output_tokens : Option Nat
  total_tokens : Option Nat
  deriving DecidableEq, Repr

structure RespObj where
  id : Option String
  created_at : Option Nat
  model : Option String
  status : Option String
  output : Option (List OutputItem)
  usage : Option UsageObj
  deriving DecidableEq, Repr

structure ChatMessage where
  role : String
  content : String
  deriving DecidableEq, Repr

structure ChatChoice where
  index : Nat
  message : ChatMessage
  finish_reason : String
  deriving DecidableEq, Repr

structure ChatUsage where
  prompt_tokens : Nat
  completion_tokens : Nat
  total_tokens : Nat
  deriving DecidableEq, Repr

structure ChatCompletionObj where
  id : String
  object : String
  created : Nat
  model : String
  choices : List ChatChoice
  usage : ChatUsage
  deriving DecidableEq, Repr

/-- The call `resp.id.replace(/^resp_/, 'chatcmpl-')`: the anchored regex rewrites the
prefix `resp_` once, at the start only. -/
def replaceRespPrefix (s : String) : String :=
  if s.startsWith "resp_" then "chatcmpl-" ++ s.drop 5 else s

/-- Embeds `convertResponseToChatCompletion` (routes.js lines 116-148), for inputs
that pass the `typeof resp === 'object'` guard (non-objects throw and are
outside `RespObj`).  `now` is the value of `Date.now()` during the call. -/
def convertResponseToChatCompletion (now : Nat) (resp : RespObj) : ChatCompletionObj :=
  let outputMsg := (resp.output.getD []).find? (fun o => o.type = "message")
  let textBlocks :=
    ((outputMsg.bind (fun m => m.content)).getD []).filter (fun c => c.type = "output_text")
  let content := String.join (textBlocks.map (fun c => c.text))
  { id :=
      match resp.id with
      | some s => if s = "" then "chatcmpl-" ++ toString now else replaceRespPrefix s
      | none => "chatcmpl-" ++ toString now
    object := "chat.completion"
    created := jsOrNat resp.created_at (now / 1000)
    model := jsOr resp.model "unknown-model"
    choices :=
      [{ index := 0
         message :=
           { role := jsOr (outputMsg.bind (fun m => m.role)) "assistant"
             content := content }
         finish_reason := if resp.status = some "completed" then "stop" else "unknown" }]
    usage :=
      { prompt_tokens := ((resp.usage.map (fun u => u.input_tokens)).getD none).getD 0
        completion_tokens := ((resp.usage.map (fun u => u.output_tokens)).getD none).getD 0
        total_tokens := ((resp.usage.map (fun u => u.total_tokens)).getD none).getD 0 } }

/-! ## Request modification pipelines (routes.js, direct endpoints)

`handleDirectMessages` (lines 515-667) and `handleDirectResponses` (lines
364-512) copy the client body, overwrite `model` with the redirected id,
inject the configured system prompt, clamp `max_output_tokens` (responses
path only), and apply the per-model reasoning policy.  Client-supplied
`thinking` / `reasoning` values are kept opaque (`clientVal`) so that the
theorems can speak about them being preserved byte-for-byte or deleted. -/

/-- The `thinking` field on the Anthropic path: either an opaque
client-supplied JSON value or the injected `{type:'enabled', budget_tokens}`
object. -/
inductive ThinkingField where
  | clientVal (raw : String)
  | enabledBudget (budget_tokens : Nat)
  deriving DecidableEq, Repr

/-- The `reasoning` field on the OpenAI path: either an opaque
client-supplied JSON value or the injected `{effort, summary}` object. -/
inductive ReasoningField where
  | clientVal (raw : String)
  | effortSummary (effort : String) (summary : String)
  deriving DecidableEq, Repr

/-- One `{type, text}` block of an Anthropic `system` array. -/
structure TextBlock where
  type : String
  text : String
  deriving DecidableEq, Repr

/-- A client-supplied `system` value: either an array of blocks or any other
JSON value (kept opaque; `Array.isArray` is false on it). -/
inductive SystemVal where
  | blocks (items : List TextBlock)
  | other (raw : String)
  deriving DecidableEq, Repr

/-- JS truthiness of a `system` value: arrays are always truthy; the opaque
case records its own truthiness via non-emptiness of the raw text. -/
def SystemVal.truthy : SystemVal → Bool
  | .blocks _ => true
  | .other raw => raw ≠ ""

/-- An inbound `/v1/messages` body, restricted to the fields the handler
touches; `rest` stands for all remaining fields, copied verbatim by the
object spread. -/
structure MessagesRequest where
  model : Option String
  system : Option SystemVal
  thinking : Option ThinkingField
  rest : String
  deriving DecidableEq, Repr

/-- An inbound `/v1/responses` body, restricted to the fields the handler
touches; `rest` stands for all remaining fields, copied verbatim.
`max_output_tokens` is `some v` when the client sent the number `v`
(restricted to integers) and `none` when absent or not a number. -/
structure ResponsesRequest where
  model : Option String
  instructions : Option String
  max_output_tokens : Option Int
  reasoning : Option ReasoningField
  rest : String
  deriving DecidableEq, Repr

/-- Budget-token table of `handleDirectMessages` (routes.js lines 594-598). -/
def budgetTokens (level : String) : Nat :=
  if level = "low" then 4096
  else if level = "medium" then 12288
  else 24576

/-- The `thinking`-field policy of `handleDirectMessages` (routes.js lines
588-607): `auto` keeps the client value, `low`/`medium`/`high` overwrite it
with the budget object, anything else (including `off` and a missing level)
deletes it. -/
def applyThinkingPolicy (reasoningLevel : Option String) (orig : Option ThinkingField) :
    Option ThinkingField :=
  match reasoningLevel with
  | some lvl =>
    if lvl = "auto" then orig
    else if lvl ≠ "" ∧ (lvl = "low" ∨ lvl = "medium" ∨ lvl = "high") then
      some (.enabledBudget (budgetTokens lvl))
    else none
  | none => none

/-- The `reasoning`-field policy of `handleDirectResponses` (routes.js lines
437-450): `auto` keeps the client value, `low`/`medium`/`high` overwrite it
with `{effort: level, summary: 'auto'}`, anything else deletes it. -/
def applyReasoningPolicy (reasoningLevel : Option String) (orig : Option ReasoningField) :
    Option ReasoningField :=
  match reasoningLevel with
  | some lvl =>
    if lvl = "auto" then orig
    else if lvl ≠ "" ∧ (lvl = "low" ∨ lvl = "medium" ∨ lvl = "high") then
      some (.effortSummary lvl "auto")
    else none
  | none => none

/-- Body modification of `handleDirectMessages` (routes.js lines 570-607):
redirected model id, system-prompt injection into the `system` array, then
the thinking policy. -/
def modifyMessagesRequest (systemPrompt : String) (modelId : String)
    (reasoningLevel : Option String) (req : MessagesRequest) : MessagesRequest :=
  let r1 := { req with model := some modelId }
  let r2 :=
    if systemPrompt ≠ "" then
      match r1.system with
      | some sv =>
        if sv.truthy then
          match sv with
          | .blocks items =>
            { r1 with system := some (.blocks (⟨"text", systemPrompt⟩ :: items)) }
          | .other _ =>
            -- truthy but not an array: replaced by a fresh one-block array
            { r1 with system := some (.blocks [⟨"text", systemPrompt⟩]) }
        else { r1 with system := some (.blocks [⟨"text", systemPrompt⟩]) }
      | none => { r1 with system := some (.blocks [⟨"text", systemPrompt⟩]) }
    else r1
  { r2 with thinking := applyThinkingPolicy reasoningLevel r2.thinking }

/-- Body modification of `handleDirectResponses` (routes.js lines 418-450):
redirected model id, system-prompt injection into `instructions`, the
`max_output_tokens` floor of 16, then the reasoning policy. -/
def modifyResponsesRequest (systemPrompt : String) (modelId : String)
    (reasoningLevel : Option String) (req : ResponsesRequest) : ResponsesRequest :=
  let r1 := { req with model := some modelId }
  let r2 :=
    if systemPrompt ≠ "" then
      if jsOr r1.instructions "" ≠ "" then
        { r1 with instructions := some (systemPrompt ++ jsOr r1.instructions "") }
      else { r1 with instructions := some systemPrompt }
    else r1
  let r3 :=
    match r2.max_output_tokens with
    | some v => if v < 16 then { r2 with max_output_tokens := some 16 } else r2
    | none => r2
  { r3 with reasoning := applyReasoningPolicy reasoningLevel r3.reasoning }

/-! ## OpenAI-family streaming transformer (transformers/response-openai.js)

`OpenAIResponseTransformer` is a per-request object.  Its constructor
constants (`model`, `requestId`, `created`, and the `Date.now()` used for a
fallback call id) are bundled into `TransformerCtx`; its mutable fields
(`toolCalls`, `toolCallIndex`, `isDone`) into `TransformerState`.

The JSON payload of a `data:` line is read by `transformEvent` only through a
fixed set of fields; `EventData` is that field set (a missing field of the JS
object, including every field access on a non-object payload, is `none`).
`JSON.parse` itself is runtime semantics, not repository code: the stream
functions take the payload decoder as an explicit `decode` parameter, and the
stream theorems hold for every decoder. -/

structure TransformerCtx where
  model : String
  requestId : String
  created : Nat
  now : Nat
  deriving DecidableEq, Repr

/-- The `item` / `part` object of an output-item event, restricted to the
fields the transformer reads. -/
structure ItemObj where
  type : Option String
  id : Option String
  call_id : Option String
  name : Option String
  arguments : Option String
  deriving DecidableEq, Repr

/-- The fields `transformEvent` reads from a decoded `data:` payload;
`responseStatus` is `eventData.response?.status`. -/
structure EventData where
  delta : Option String
  text : Option String
  item : Option ItemObj
  part : Option ItemObj
  item_id : Option String
  responseStatus : Option String
  status : Option String
  deriving DecidableEq, Repr

/-- A payload with no readable fields (for example a non-JSON `data:` line,
which the source keeps as a raw string: every field access yields
`undefined`). -/
def EventData.empty : EventData := ⟨none, none, none, none, none, none, none⟩

/-- One entry of the `toolCalls` map: `{index, id, name, arguments}`. -/
structure ToolCallEntry where
  index : Nat
  id : String
  name : String
  arguments : String
  deriving DecidableEq, Repr

/-- The JS `Map` keyed by `item.id` (which may be `undefined`, hence
`Option String` keys), as an insertion-ordered association list. -/
def TCMap := List (Option String × ToolCallEntry)

/-- Embeds `Map.prototype.get`. -/
def tcGet (m : TCMap) (k : Option String) : Option ToolCallEntry :=
  match m with
  | [] => none
  | p :: rest => if p.1 = k then some p.2 else tcGet rest k

/-- Embeds `Map.prototype.set`: replaces an existing key in place, else appends. -/
def tcSet (m : TCMap) (k : Option String) (v : ToolCallEntry) : TCMap :=
  match m with
  | [] => [(k, v)]
  | p :: rest => if p.1 = k then (k, v) :: rest else p :: tcSet rest k v

/-- Embeds `Map.prototype.size` (`> 0` is all the source asks of it). -/
def tcSize (m : TCMap) : Nat := m.length

structure TransformerState where
  toolCalls : TCMap
  toolCallIndex : Nat
  isDone : Bool

/-- Constructor state of `OpenAIResponseTransformer` (lines 216-223):
an empty map, index 0; `transformStream` sets `isDone = false` on entry. -/
def initialTransformerState : TransformerState := ⟨[], 0, false⟩

/-- The `function` sub-object of an emitted tool-call delta. -/
structure FuncDelta where
  name : Option String
  argumentsVal : String
  deriving DecidableEq, Repr

/-- One element of an emitted `delta.tool_calls` array. -/
structure ToolCallDelta where
  index : Nat
  id : Option String
  type : Option String
  func : Option FuncDelta
  deriving DecidableEq, Repr

/-- The `choices[0].delta` object of an emitted chunk. -/
structure DeltaObj where
  role : Option String
  content : Option String
  tool_calls : Option (List ToolCallDelta)
  deriving DecidableEq, Repr

/-- One emitted canonical chunk: the JSON object serialized into a
`data: <json>\n\n` SSE frame.  `choiceIndex` is `choices[0].index`. -/
structure ChunkObj where
  id : String
  object : String
  created : Nat
  model : String
  system_fingerprint : Option String
  choiceIndex : Nat
  delta : DeltaObj
  finish_reason : Option String
  deriving DecidableEq, Repr

/-- One canonical output frame.  `doneSignal` is `createDoneSignal()`
(line 375-377): the literal terminal sentinel string "data: [DONE]\n\n". -/
inductive Frame where
  | chunk (c : ChunkObj)
  | doneSignal
  deriving DecidableEq, Repr

/-- Embeds `createOpenAIChunk` (lines 350-373): `role` and `content` are added to
the delta only when truthy; `finish_reason` is `finishReason` when `finish`
is set, else `null`. -/
def createOpenAIChunk (ctx : TransformerCtx) (content : String) (role : Option String)
    (finish : Bool) (finishReason : Option String) : Frame :=
  .chunk
    { id := ctx.requestId, object := "chat.completion.chunk", created := ctx.created,
      model := ctx.model, system_fingerprint := none, choiceIndex := 0,
      delta :=
        { role := if jsOr role "" = "" then none else role
          content := if content = "" then none else some content
          tool_calls := none }
      finish_reason := if finish then finishReason else none }

/-- Embeds `createToolCallChunk` (lines 379-418): the first chunk of a streamed tool
call carries id, type and function name with empty arguments; continuation
chunks carry only the arguments delta. -/
def createToolCallChunk (ctx : TransformerCtx) (index : Nat) (toolCallId : String)
    (functionName : Option String) (argumentsDelta : String) (isFirst : Bool) : Frame :=
  .chunk
    { id := ctx.requestId, object := "chat.completion.chunk", created := ctx.created,
      model := ctx.model, system_fingerprint := none, choiceIndex := 0,
      delta :=
        { role := none, content := none,
          tool_calls := some
            [ if isFirst then
                { index := index, id := some toolCallId, type := some "function",
                  func := some { name := some (functionName.getD ""), argumentsVal := "" } }
              else
                { index := index, id := none, type := none,
                  func := some { name := none, argumentsVal := argumentsDelta } } ] }
      finish_reason := none }

/-- Embeds `createCompleteToolCallChunk` (lines 421-451): a whole tool call in one
chunk, with the `fp_factory` fingerprint and the assistant role marker. -/
def createCompleteToolCallChunk (ctx : TransformerCtx) (index : Nat) (toolCallId : String)
    (functionName : String) (functionArgs : String) : Frame :=
  .chunk
    { id := ctx.requestId, object := "chat.completion.chunk", created := ctx.created,
      model := ctx.model, system_fingerprint := some "fp_factory", choiceIndex := 0,
      delta :=
        { role := some "assistant", content := none,
          tool_calls := some
            [ { index := index, id := some toolCallId, type := some "function",
                func := some { name := some functionName, argumentsVal := functionArgs } } ] }
      finish_reason := none }

/-- Tests `item` truthy and of type `output_text` (the text-part guard of lines
266-274, applied to `eventData.item || eventData.part`). -/
def isOutputTextItem (o : Option ItemObj) : Bool :=
  match o with
  | some it => it.type = some "output_text"
  | none => false

/-- The JS expression `eventData.item || eventData.part` (objects are truthy). -/
def itemOrPart (d : EventData) : Option ItemObj :=
  match d.item with
  | some it => some it
  | none => d.part

/-- Embeds `transformEvent` (lines 240-348), with the source's sequential `if`
chain reproduced branch for branch.  The source returns `null` or a string
holding one frame (two for the completion branch, which concatenates the
final chunk and the done sentinel); here the emitted frames are a list. -/
def transformEvent (ctx : TransformerCtx) (st : TransformerState) (eventType : String)
    (d : EventData) : TransformerState × List Frame :=
  if eventType = "response.created" then
    (st, [createOpenAIChunk ctx "" (some "assistant") false none])
  else if eventType = "response.in_progress" then (st, [])
  else if eventType = "response.output_text.delta" ∨ eventType = "response.text.delta" ∨
      eventType = "response.content_part.delta" then
    (st, [createOpenAIChunk ctx (jsOr d.delta (jsOr d.text "")) (some "assistant") false none])
  else if eventType = "response.output_text.done" ∨ eventType = "response.text.done" ∨
      eventType = "response.content_part.done" then (st, [])
  else if (eventType = "response.content_part.added" ∨
      eventType = "response.output_item.added") ∧ isOutputTextItem (itemOrPart d) then
    (st, [])
  else if eventType = "response.output_item.added" then
    match d.item with
    | some it =>
      if it.type = some "function_call" then
        let toolCallId := jsOr it.call_id (jsOr it.id ("call_" ++ toString ctx.now))
        let index := st.toolCallIndex
        let entry : ToolCallEntry := ⟨index, toolCallId, jsOr it.name "", ""⟩
        ({ st with toolCalls := tcSet st.toolCalls it.id entry, toolCallIndex := index + 1 },
          [createToolCallChunk ctx index toolCallId (some (jsOr it.name "")) "" true])
      else (st, [])
    | none => (st, [])
  else if eventType = "response.function_call_arguments.delta" then
    let delta := jsOr d.delta ""
    match tcGet st.toolCalls d.item_id with
    | some tc =>
      let tc1 : ToolCallEntry := { tc with arguments := tc.arguments ++ delta }
      ({ st with toolCalls := tcSet st.toolCalls d.item_id tc1 },
        [createToolCallChunk ctx tc.index tc.id none delta false])
    | none => (st, [])
  else if eventType = "response.function_call_arguments.done" then (st, [])
  else if eventType = "response.output_item.done" then
    match d.item with
    | some it =>
      if it.type = some "function_call" then
        let toolCallId := jsOr it.call_id (jsOr it.id ("call_" ++ toString ctx.now))
        let index := st.toolCallIndex
        ({ st with toolCallIndex := index + 1 },
          [createCompleteToolCallChunk ctx index toolCallId (jsOr it.name "")
            (jsOr it.arguments "\x7b\x7d")])
      else (st, [])
    | none => (st, [])
  else if eventType = "response.done" ∨ eventType = "response.completed" then
    let status := jsOr d.responseStatus (jsOr d.status "completed")
    let finishReason :=
      if status = "completed" then (if tcSize st.toolCalls > 0 then "tool_calls" else "stop")
      else if status = "incomplete" then "length"
      else "stop"
    ({ st with isDone := true },
      [createOpenAIChunk ctx "" none true (some finishReason), .doneSignal])
  else (st, [])

/-- Feeding a sequence of already-decoded `(eventType, data)` pairs to
`transformEvent`, accumulating the emitted frames. -/
def runEvents (ctx : TransformerCtx) :
    TransformerState → List (String × EventData) → TransformerState × List Frame
  | st, [] => (st, [])
  | st, e :: es =>
    let r1 := transformEvent ctx st e.1 e.2
    let r2 := runEvents ctx r1.1 es
    (r2.1, r1.2 ++ r2.2)

/-! ### Line framing (`parseSSELine` and the `transformStream` loop)

The byte chunks of the source are `Buffer`s turned into strings by
`chunk.toString()`; here a chunk is its character sequence (`List Char`).
The multi-byte UTF-8 pitfall of `toString` on a chunk boundary is discussed
with claim C4. -/

/-- Whitespace for `String.prototype.trim` (the code points occurring in SSE
traffic). -/
def isWsChar (c : Char) : Bool :=
  c = ' ' || c = '\t' || c = '\n' || c = '\r'

/-- Embeds `line.trim()`. -/
def trimChars (l : List Char) : List Char :=
  ((l.dropWhile isWsChar).reverse.dropWhile isWsChar).reverse

/-- Embeds `buffer.split('\n')`: never empty; the last element is the trailing
partial line. -/
def splitNl : List Char → List (List Char)
  | [] => [[]]
  | c :: rest =>
    if c = '\n' then [] :: splitNl rest
    else
      match splitNl rest with
      | [] => [[c]]
      | l :: ls => (c :: l) :: ls

/-- Result of `parseSSELine` (lines 225-238).  For a `data:` line the source
runs `JSON.parse` on the trimmed payload (falling back to the raw string);
here the trimmed payload is kept and the decoding into the fields of
`EventData` happens at the use site through the abstract `decode`
parameter. -/
inductive SSEParsed where
  | event (value : String)
  | data (raw : List Char)
  deriving DecidableEq, Repr

/-- Embeds `parseSSELine` (lines 225-238). -/
def parseSSELine (line : List Char) : Option SSEParsed :=
  if ("event:".toList).isPrefixOf line then
    some (.event (String.mk (trimChars (line.drop 6))))
  else if ("data:".toList).isPrefixOf line then
    some (.data (trimChars (line.drop 5)))
  else none

/-- The per-stream loop variables of `transformStream`: `currentEvent` and
the transformer's own state. -/
structure LoopState where
  currentEvent : Option String
  tstate : TransformerState

/-- The body of the `for (const line of lines)` loop (lines 464-479): blank
lines and unparseable lines are skipped; an `event:` line records the
pending event type; a `data:` line is transformed only under a truthy
pending event type, which is then reset. -/
def processLine (decode : List Char → EventData) (ctx : TransformerCtx)
    (s : LoopState) (line : List Char) : LoopState × List Frame :=
  if trimChars line = [] then (s, [])
  else
    match parseSSELine line with
    | none => (s, [])
    | some (.event v) => ({ s with currentEvent := some v }, [])
    | some (.data raw) =>
      match s.currentEvent with
      | some ev =>
        if ev = "" then (s, [])
        else
          let r := transformEvent ctx s.tstate ev (decode raw)
          ({ currentEvent := none, tstate := r.1 }, r.2)
      | none => (s, [])

/-- The line loop over a list of complete lines. -/
def processLines (decode : List Char → EventData) (ctx : TransformerCtx) :
    LoopState → List (List Char) → LoopState × List Frame
  | s, [] => (s, [])
  | s, l :: ls =>
    let r1 := processLine decode ctx s l
    let r2 := processLines decode ctx r1.1 ls
    (r2.1, r1.2 ++ r2.2)

/-- The buffering state of `transformStream`: the carried-over partial line
plus the loop state. -/
structure StreamState where
  buffer : List Char
  loopState : LoopState

/-- Embeds `lines.pop() || ''`: the last element of a (never-empty) line list. -/
def lastD : List (List Char) → List Char
  | [] => []
  | [l] => l
  | _ :: l :: ls => lastD (l :: ls)

/-- One iteration of `for await (const chunk of sourceStream)` (lines
459-480): append the chunk to the buffer, split on newline, keep the
trailing partial line, process the complete lines. -/
def feedChunk (decode : List Char → EventData) (ctx : TransformerCtx)
    (ss : StreamState) (chunk : List Char) : StreamState × List Frame :=
  let lines := splitNl (ss.buffer ++ chunk)
  let r := processLines decode ctx ss.loopState lines.dropLast
  (⟨lastD lines, r.1⟩, r.2)

/-- Feeding the whole chunk sequence. -/
def feedMany (decode : List Char → EventData) (ctx : TransformerCtx) :
    StreamState → List (List Char) → StreamState × List Frame
  | ss, [] => (ss, [])
  | ss, c :: cs =>
    let r1 := feedChunk decode ctx ss c
    let r2 := feedMany decode ctx r1.1 cs
    (r2.1, r1.2 ++ r2.2)

/-- Entry state of `transformStream`: empty buffer, no pending event,
`isDone = false` (line 456). -/
def initialStreamState : StreamState := ⟨[], ⟨none, initialTransformerState⟩⟩

/-- Embeds `transformStream` (lines 453-495) on a finite chunk sequence: run the
chunk loop, then synthesize the final `stop` chunk and the done sentinel if
no completion event was seen (lines 483-486).  The `catch` path never fires
in this total model. -/
def transformStream (decode : List Char → EventData) (ctx : TransformerCtx)
    (chunks : List (List Char)) : List Frame :=
  let r := feedMany decode ctx initialStreamState chunks
  if r.1.loopState.tstate.isDone then r.2
  else r.2 ++ [createOpenAIChunk ctx "" none true (some "stop"), .doneSignal]

/-- Client-side reconstruction of tool calls from emitted frames, in the
canonical contract: a tool-call delta carrying a function name starts a new
entry at its index; one without a name appends its arguments fragment to the
entry at its index. -/
def reconstructToolCalls (fs : List Frame) : List (Nat × String × String) :=
  fs.foldl
    (fun acc f =>
      match f with
      | .chunk c =>
        match c.delta.tool_calls with
        | some tcs =>
          tcs.foldl
            (fun acc2 tc =>
              match tc.func with
              | some fd =>
                match fd.name with
                | some nm => acc2 ++ [(tc.index, nm, fd.argumentsVal)]
                | none =>
                  acc2.map (fun e =>
                    if e.1 = tc.index then (e.1, e.2.1, e.2.2 ++ fd.argumentsVal) else e)
              | none => acc2)
            acc
        | none => acc
      | .doneSignal => acc)
    []

/-- A line that announces a stream-completion event (`event:` line whose
value is `response.done` or `response.completed`). -/
def isCompletionEventLine (line : List Char) : Bool :=
  match parseSSELine line with
  | some (.event v) => v = "response.done" || v = "response.completed"
  | _ => false

/-! ## Concrete scenario data used by the claim theorems -/

/-- The pool states reachable in factory-key mode with `n` loaded keys:
`loadAuthConfig` initializes the indices, and afterwards only
`rotateFactoryApiKey` and `startNewRotationCycle` touch them. -/
inductive ReachableRot (n : Nat) : RotState → Prop
  | init : ReachableRot n loadAuthConfigState
  | rotate (st : RotState) : ReachableRot n st → ReachableRot n (rotateFactoryApiKey n st).2
  | newCycle (st : RotState) : ReachableRot n st → ReachableRot n (startNewRotationCycle st)

/-- The `function_call` output item of the C2 scenario: vendor item id
`item_X`, call id `call_X`, function name `lookup`. -/
def c2Item : ItemObj :=
  { type := some "function_call", id := some "item_X", call_id := some "call_X",
    name := some "lookup", arguments := none }

/-- The C2 event sequence: tool-call start, two argument deltas appending
the texts `{"q":` and `"cat"}`, and the arguments-completed event for the
same item. -/
def c2Events : List (String × EventData) :=
  [("response.output_item.added", { EventData.empty with item := some c2Item }),
   ("response.function_call_arguments.delta",
     { EventData.empty with item_id := some "item_X", delta := some "\x7b\"q\":" }),
   ("response.function_call_arguments.delta",
     { EventData.empty with item_id := some "item_X", delta := some "\"cat\"\x7d" }),
   ("response.function_call_arguments.done",
     { EventData.empty with item_id := some "item_X" })]

/-- The accumulated arguments text of the C2 scenario. -/
def c2Args : String := "\x7b\"q\":\"cat\"\x7d"

/-- A vendor response carrying none of the recognized fields (still a valid
JS object, so it passes the normalizer's input guard). -/
def emptyRespObj : RespObj := ⟨none, none, none, none, none, none⟩

/-- A vendor response with truthy `id` and `created_at` fields. -/
def c6SampleResp : RespObj :=
  { id := some "resp_abc", created_at := some 5, model := some "gpt-5.1",
    status := some "completed", output := none, usage := none }

end Droid2Api

namespace Droid2Api

/-! # Theorems -/

/-! ## Claim C7: reasoning injection -/

/-- The thinking-policy step is the only part of the messages pipeline that
touches the `thinking` field. -/
theorem modifyMessagesRequest_thinking (sp mid : String) (lvl : Option String)
    (req : MessagesRequest) :
    (modifyMessagesRequest sp mid lvl req).thinking = applyThinkingPolicy lvl req.thinking := by
  simp only [modifyMessagesRequest]
  repeat' split
  all_goals rfl

/-- The reasoning-policy step is the only part of the responses pipeline that
touches the `reasoning` field. -/
theorem modifyResponsesRequest_reasoning (sp mid : String) (lvl : Option String)
    (req : ResponsesRequest) :
    (modifyResponsesRequest sp mid lvl req).reasoning =
      applyReasoningPolicy lvl req.reasoning := by
  simp only [modifyResponsesRequest]
  repeat' split
  all_goals rfl

/-- Claim C7: a model configured `high` on the thinking (budget-token)
family yields `thinking.budget_tokens = 24576` (`medium` = 12288, `low` =
4096); `off` removes any client-supplied `thinking` / `reasoning` field
entirely; `auto` leaves a client-supplied field unchanged; on the effort
family the level name is passed verbatim as `effort` with `summary = 'auto'`. -/
theorem reasoning_injection_policy (systemPrompt modelId : String)
    (reqM : MessagesRequest) (reqR : ResponsesRequest) :
    (modifyMessagesRequest systemPrompt modelId (some "high") reqM).thinking =
        some (.enabledBudget 24576) ∧
    (modifyMessagesRequest systemPrompt modelId (some "medium") reqM).thinking =
        some (.enabledBudget 12288) ∧
    (modifyMessagesRequest systemPrompt modelId (some "low") reqM).thinking =
        some (.enabledBudget 4096) ∧
    (modifyMessagesRequest systemPrompt modelId (some "off") reqM).thinking = none ∧
    (modifyMessagesRequest systemPrompt modelId (some "auto") reqM).thinking =
        reqM.thinking ∧
    (modifyResponsesRequest systemPrompt modelId (some "off") reqR).reasoning = none ∧
    (modifyResponsesRequest systemPrompt modelId (some "auto") reqR).reasoning =
        reqR.reasoning ∧
    (modifyResponsesRequest systemPrompt modelId (some "low") reqR).reasoning =
        some (.effortSummary "low" "auto") ∧
    (modifyResponsesRequest systemPrompt modelId (some "medium") reqR).reasoning =
        some (.effortSummary "medium" "auto") ∧
    (modifyResponsesRequest systemPrompt modelId (some "high") reqR).reasoning =
        some (.effortSummary "high" "auto") := by
  simp only [modifyMessagesRequest_thinking, modifyResponsesRequest_reasoning]
  refine ⟨?_, ?_, ?_, ?_, ?_, ?_, ?_, ?_, ?_, ?_⟩ <;>
    simp [applyThinkingPolicy, applyReasoningPolicy, budgetTokens]

/-! ## Claim C8: output-token floor on the responses path -/

/-- Claim C8: on the `/v1/responses` path a numeric `max_output_tokens`
strictly below 16 is raised to exactly 16 in the outbound request, a value
of 16 or more is forwarded unchanged, and an absent value stays absent. -/
theorem max_output_tokens_floor (systemPrompt modelId : String) (lvl : Option String)
    (req : ResponsesRequest) :
    (modifyResponsesRequest systemPrompt modelId lvl req).max_output_tokens =
      req.max_output_tokens.map (fun v => if v < 16 then 16 else v) := by
  simp only [modifyResponsesRequest]
  repeat' split
  all_goals (try simp_all)
  all_goals (split <;> omega)

/-! ## Claim C6: the non-streaming normalizer and call-time independence -/

/-- Counterexample to claim C6 as stated: a valid (object-shaped) vendor
response without an `id` gets a synthesized `chatcmpl-${Date.now()}` id, so
two calls made at different clock values produce different outputs. -/
theorem convert_time_dependence_counterexample :
    convertResponseToChatCompletion 1000 emptyRespObj ≠
      convertResponseToChatCompletion 2000 emptyRespObj := by
  decide

/-- Claim C6 (amended): on valid vendor responses whose `id` and
`created_at` are present and truthy, the normalizer's output does not depend
on the call time, so calling it twice on the same input yields identical
outputs. -/
theorem convert_deterministic_with_id_and_created (now1 now2 : Nat) (resp : RespObj)
    (hid : ∃ s, resp.id = some s ∧ s ≠ "")
    (hcreated : ∃ c, resp.created_at = some c ∧ c ≠ 0) :
    convertResponseToChatCompletion now1 resp = convertResponseToChatCompletion now2 resp := by
  obtain ⟨s, hs, hsne⟩ := hid
  obtain ⟨c, hc, hcne⟩ := hcreated
  simp [convertResponseToChatCompletion, hs, hc, jsOrNat, hsne, hcne]

/-- Witness for the amended claim C6 at a concrete response and two distinct
call times. -/
theorem convert_deterministic_witness :
    convertResponseToChatCompletion 1000 c6SampleResp =
      convertResponseToChatCompletion 2000 c6SampleResp :=
  convert_deterministic_with_id_and_created 1000 2000 c6SampleResp
    ⟨"resp_abc", rfl, by decide⟩ ⟨5, rfl, by decide⟩

/-! ## Claim C2: tool-call reconstruction -/

/-- Claim C2: a tool-call start event for one item with function name
`lookup`, two argument-delta events appending the texts `{"q":` and
`"cat"}`, and the arguments-completed event for that item, produce exactly
one accumulated tool-call entry, at index 0, with name `lookup` and final
arguments `{"q":"cat"}` - both in the transformer's accumulator and in the
client-side reconstruction of the emitted chunks. -/
theorem openai_transformer_reconstructs_tool_call (ctx : TransformerCtx) :
    (runEvents ctx initialTransformerState c2Events).1.toolCalls =
      [(some "item_X", ⟨0, "call_X", "lookup", c2Args⟩)] ∧
    reconstructToolCalls (runEvents ctx initialTransformerState c2Events).2 =
      [(0, "lookup", c2Args)] :=
  ⟨rfl, rfl⟩

/-! ## Claim C10: the pool index invariant -/

/-- Every reachable rotation state keeps the active index inside the pool. -/
theorem reachableRot_index_lt (n : Nat) (hn : 0 < n) :
    ∀ st, ReachableRot n st → st.currentKeyIndex < n := by
  intro st h
  induction h with
  | init => simpa [loadAuthConfigState] using hn
  | rotate st' _ ih =>
    simp only [rotateFactoryApiKey]
    split
    · exact ih
    · split
      · exact ih
      · simpa using Nat.mod_lt _ hn
  | newCycle st' _ ih => simpa [startNewRotationCycle] using ih

/-- Claim C10: the current key index starts at 0 when the keys are loaded,
every successful rotation assigns `(currentKeyIndex + 1) % poolSize`, the
index always lies within `[0, poolSize)`, and `getApiKey` in factory-key
mode always returns `Bearer ` followed by a key of the configured pool. -/
theorem rotation_index_invariant (keys : List String) (st : RotState)
    (hne : keys ≠ []) (h : ReachableRot keys.length st) :
    loadAuthConfigState.currentKeyIndex = 0 ∧
    (∀ s : RotState, (rotateFactoryApiKey keys.length s).1 = true →
      ((rotateFactoryApiKey keys.length s).2).currentKeyIndex =
        (s.currentKeyIndex + 1) % keys.length) ∧
    st.currentKeyIndex < keys.length ∧
    getApiKey keys st ∈ keys.map (fun k => "Bearer " ++ k) := by
  have hn : 0 < keys.length := List.length_pos.mpr hne
  have hlt := reachableRot_index_lt keys.length hn st h
  refine ⟨rfl, ?_, hlt, ?_⟩
  · intro s hs
    simp only [rotateFactoryApiKey] at hs ⊢
    split at hs
    · simp at hs
    · split at hs
      · simp at hs
      · rw [if_neg (by assumption), if_neg (by assumption)]
  · have h1 : keys.getD st.currentKeyIndex "" = keys.get ⟨st.currentKeyIndex, hlt⟩ := by
      simp [List.getD_eq_getElem?_getD, List.getElem?_eq_getElem hlt]
    have hmem : keys.getD st.currentKeyIndex "" ∈ keys := by
      rw [h1]; exact List.get_mem keys st.currentKeyIndex hlt
    simpa [getApiKey] using List.mem_map_of_mem (fun k => "Bearer " ++ k) hmem

/-- Witness for claim C10: the freshly loaded two-key pool. -/
theorem rotation_index_invariant_witness :
    loadAuthConfigState.currentKeyIndex < (["k1", "k2"] : List String).length ∧
    getApiKey ["k1", "k2"] loadAuthConfigState ∈
      (["k1", "k2"] : List String).map (fun k => "Bearer " ++ k) :=
  ⟨(rotation_index_invariant ["k1", "k2"] loadAuthConfigState (by decide)
      ReachableRot.init).2.2.1,
   (rotation_index_invariant ["k1", "k2"] loadAuthConfigState (by decide)
      ReachableRot.init).2.2.2⟩

/-! ## Claims C1 and C5: the resilient dispatcher

Modular arithmetic of the rotation walk: starting at `start < n` and stepping
with `+ 1 mod n`, the first `n - 1` steps stay away from `start` and the
`n`-th step comes back to it. -/

theorem mod_succ_shift (n a : Nat) (h : 2 ≤ n) : (a % n + 1) % n = (a + 1) % n := by
  conv_rhs => rw [Nat.add_mod]
  rw [Nat.mod_eq_of_lt (show 1 < n by omega)]

theorem mod_shift_ne_start (n start j : Nat) (hstart : start < n) (hj : 0 < j)
    (hjn : j < n) : (start + j) % n ≠ start := by
  intro he
  rcases Nat.lt_or_ge (start + j) n with hlt | hge
  · rw [Nat.mod_eq_of_lt hlt] at he; omega
  · have hs : (start + j) % n = start + j - n := by
      rw [Nat.mod_eq_sub_mod hge, Nat.mod_eq_of_lt (by omega)]
    rw [hs] at he; omega

theorem mod_cycle_back (n start : Nat) (h2 : 2 ≤ n) (hstart : start < n) :
    ((start + (n - 1)) % n + 1) % n = start := by
  rw [mod_succ_shift n _ h2, show start + (n - 1) + 1 = start + n by omega,
    Nat.add_mod_right, Nat.mod_eq_of_lt hstart]

/-- The indices of one rotation cycle are pairwise distinct. -/
theorem cycle_map_nodup (n start : Nat) :
    ((List.range n).map (fun i => (start + i) % n)).Nodup := by
  refine List.Nodup.map_on ?_ (List.nodup_range n)
  intro i hi j hj hij
  rw [List.mem_range] at hi hj
  have h1 : i % n = j % n := Nat.ModEq.add_left_cancel' start hij
  rwa [Nat.mod_eq_of_lt hi, Nat.mod_eq_of_lt hj] at h1

/-- The attempt loop under total failure: from attempt `j` (with the cycle
started at `start` and the current key at `(start + j) % n`), if all first
`n` attempts hit quota/auth failures, the loop walks the remaining
`n - j` keys and ends by refusing to rotate back onto `start`, returning the
last attempt's response. -/
theorem fetchWithFallbackLoop_all_fail (n start : Nat) (upstream : Nat → Nat × String)
    (h2 : 2 ≤ n) (hstart : start < n)
    (hfail : ∀ i, i < n → isQuotaOrAuthError (upstream i).1 = true) :
    ∀ d j fuel acc, j + d + 1 = n → n - j ≤ fuel →
      fetchWithFallbackLoop n upstream fuel j ⟨(start + j) % n, start, false⟩ acc =
        some (acc ++ (List.range' j (n - j)).map (fun i => (start + i) % n),
          ⟨(start + (n - 1)) % n, start, true⟩, mkResponse (upstream (n - 1))) := by
  intro d
  induction d with
  | zero =>
    intro j fuel acc hd hfuel
    have hj : j = n - 1 := by omega
    subst hj
    obtain ⟨f, rfl⟩ : ∃ f, fuel = f + 1 := ⟨fuel - 1, by omega⟩
    have hne1 : ¬ n ≤ 1 := by omega
    have hwrap := mod_cycle_back n start h2 hstart
    rw [show n - (n - 1) = 1 by omega]
    simp only [fetchWithFallbackLoop, mkResponse, hasMoreFactoryKeys, rotateFactoryApiKey,
      hfail (n - 1) (by omega), hne1, hwrap, if_true, if_false, ite_true, ite_false,
      Bool.not_false, List.range', List.map_cons, List.map_nil]
    simp

  | succ d ih =>
    intro j fuel acc hd hfuel
    have hjn : j < n := by omega
    have hj1 : j + 1 < n := by omega
    obtain ⟨f, rfl⟩ : ∃ f, fuel = f + 1 := ⟨fuel - 1, by omega⟩
    have hne1 : ¬ n ≤ 1 := by omega
    have hstep : ((start + j) % n + 1) % n = (start + (j + 1)) % n := by
      rw [mod_succ_shift n _ h2, Nat.add_assoc]
    have hne : (start + (j + 1)) % n ≠ start :=
      mod_shift_ne_start n start (j + 1) hstart (by omega) hj1
    simp only [fetchWithFallbackLoop, mkResponse, hasMoreFactoryKeys, rotateFactoryApiKey,
      hfail j hjn, hne1, hstep, hne, if_true, if_false, ite_true, ite_false,
      Bool.not_false]
    rw [ih (j + 1) f (acc ++ [(start + j) % n]) (by omega) (by omega)]
    rw [show n - j = (n - j - 1) + 1 by omega, show n - (j + 1) = n - j - 1 by omega]
    simp [List.range', mkResponse]

/-- Claim C1: with a pool of `N ≥ 2` keys (the loader provides at most 7,
which keeps the attempt cap out of the way) and `N` consecutive quota/auth
failures, the dispatcher tries exactly `N` pairwise-distinct credentials -
one full cycle starting from the credential current at dispatch start - and
returns the last attempt's upstream response unmodified, its body not
consumed. -/
theorem fetchWithFallback_exhausts_full_cycle (n : Nat) (upstream : Nat → Nat × String)
    (st : RotState) (h2 : 2 ≤ n) (h7 : n ≤ maxFactoryKeys)
    (hlt : st.currentKeyIndex < n)
    (hfail : ∀ i, i < n → isQuotaOrAuthError (upstream i).1 = true) :
    fetchWithFallback n upstream st =
      some ((List.range n).map (fun i => (st.currentKeyIndex + i) % n),
        ⟨(st.currentKeyIndex + (n - 1)) % n, st.currentKeyIndex, true⟩,
        mkResponse (upstream (n - 1))) ∧
    ((List.range n).map (fun i => (st.currentKeyIndex + i) % n)).length = n ∧
    ((List.range n).map (fun i => (st.currentKeyIndex + i) % n)).Nodup ∧
    (mkResponse (upstream (n - 1))).bodyUsed = false := by
  obtain ⟨start, sk, fc⟩ := st
  have h0 : (start + 0) % n = start := by
    rw [Nat.add_zero, Nat.mod_eq_of_lt hlt]
  have h7' : n ≤ 7 := by simpa [maxFactoryKeys] using h7
  have hmain := fetchWithFallbackLoop_all_fail n start upstream h2 hlt hfail
    (n - 1) 0 maxAttempts [] (by omega) (by simp [maxAttempts]; omega)
  rw [h0] at hmain
  refine ⟨?_, by simp, cycle_map_nodup n start, rfl⟩
  simpa [fetchWithFallback, startNewRotationCycle, List.range_eq_range'] using hmain

/-- Witness for claim C1: three keys, dispatch starting at key index 1, all
attempts failing with 429: the dispatcher tries keys 1, 2, 0 and returns the
third attempt's response with an unread body. -/
theorem fetchWithFallback_exhausts_full_cycle_witness :
    fetchWithFallback 3 (fun _ => (429, "quota")) ⟨1, 0, false⟩ =
      some ([1, 2, 0], ⟨0, 1, true⟩, ⟨429, "quota", false⟩) := by
  have h := fetchWithFallback_exhausts_full_cycle 3 (fun _ => (429, "quota")) ⟨1, 0, false⟩
    (by decide) (by decide) (by decide) (fun i _ => rfl)
  rw [h.1]; rfl

/-- The attempt loop when attempt `k` succeeds after failures on attempts
`j, ..., k - 1`. -/
theorem fetchWithFallbackLoop_success (n start k : Nat) (upstream : Nat → Nat × String)
    (h2 : 2 ≤ n) (hstart : start < n) (hkn : k < n)
    (hfail : ∀ i, i < k → isQuotaOrAuthError (upstream i).1 = true)
    (hsucc : isQuotaOrAuthError (upstream k).1 = false) :
    ∀ d j fuel acc, j + d = k → k - j < fuel →
      fetchWithFallbackLoop n upstream fuel j ⟨(start + j) % n, start, false⟩ acc =
        some (acc ++ (List.range' j (k - j + 1)).map (fun i => (start + i) % n),
          ⟨(start + k) % n, start, false⟩, mkResponse (upstream k)) := by
  intro d
  induction d with
  | zero =>
    intro j fuel acc hd hfuel
    have hj : j = k := by omega
    subst hj
    obtain ⟨f, rfl⟩ : ∃ f, fuel = f + 1 := ⟨fuel - 1, by omega⟩
    simp only [fetchWithFallbackLoop, mkResponse, hsucc, if_false, ite_false,
      Bool.false_eq_true]
    rw [show j - j + 1 = 1 by omega]
    simp [List.range']
  | succ d ih =>
    intro j fuel acc hd hfuel
    have hjk : j < k := by omega
    obtain ⟨f, rfl⟩ : ∃ f, fuel = f + 1 := ⟨fuel - 1, by omega⟩
    have hne1 : ¬ n ≤ 1 := by omega
    have hstep : ((start + j) % n + 1) % n = (start + (j + 1)) % n := by
      rw [mod_succ_shift n _ h2, Nat.add_assoc]
    have hne : (start + (j + 1)) % n ≠ start :=
      mod_shift_ne_start n start (j + 1) hstart (by omega) (by omega)
    simp only [fetchWithFallbackLoop, mkResponse, hasMoreFactoryKeys, rotateFactoryApiKey,
      hfail j hjk, hne1, hstep, hne, if_true, if_false, ite_true, ite_false,
      Bool.not_false]
    rw [ih (j + 1) f (acc ++ [(start + j) % n]) (by omega) (by omega)]
    rw [show k - j + 1 = (k - (j + 1) + 1) + 1 by omega]
    simp [List.range', mkResponse, show k - j - 1 = k - (j + 1) by omega]

/-- Claim C5: when a dispatch succeeds on attempt `k` after `k ≥ 1`
rotations within the same logical request, the dispatcher returns that
successful upstream response unmodified (body unread); the rotation is
visible in the pool state - `didRotationOccur` holds, which is exactly what
gates the fallback-success telemetry log - but not in the returned value. -/
theorem fetchWithFallback_success_after_rotation (n k : Nat) (upstream : Nat → Nat × String)
    (st : RotState) (h2 : 2 ≤ n) (h7 : n ≤ maxFactoryKeys)
    (hlt : st.currentKeyIndex < n) (hk : 1 ≤ k) (hkn : k < n)
    (hfail : ∀ i, i < k → isQuotaOrAuthError (upstream i).1 = true)
    (hsucc : isQuotaOrAuthError (upstream k).1 = false) :
    fetchWithFallback n upstream st =
      some ((List.range' 0 (k + 1)).map (fun i => (st.currentKeyIndex + i) % n),
        ⟨(st.currentKeyIndex + k) % n, st.currentKeyIndex, false⟩,
        mkResponse (upstream k)) ∧
    didRotationOccur ⟨(st.currentKeyIndex + k) % n, st.currentKeyIndex, false⟩ = true ∧
    (mkResponse (upstream k)).bodyUsed = false := by
  obtain ⟨start, sk, fc⟩ := st
  have h0 : (start + 0) % n = start := by
    rw [Nat.add_zero, Nat.mod_eq_of_lt hlt]
  have h7' : n ≤ 7 := by simpa [maxFactoryKeys] using h7
  have hmain := fetchWithFallbackLoop_success n start k upstream h2 hlt hkn hfail hsucc
    k 0 maxAttempts [] (by omega) (by simp [maxAttempts]; omega)
  rw [h0] at hmain
  refine ⟨?_, ?_, rfl⟩
  · simpa [fetchWithFallback, startNewRotationCycle] using hmain
  · have := mod_shift_ne_start n start k hlt hk hkn
    simp [didRotationOccur, this]

/-- Witness for claim C5: two keys, a 429 on the first attempt, success on
the second: the dispatcher returns the successful response unchanged and the
rotation is recorded in the pool state. -/
theorem fetchWithFallback_success_after_rotation_witness :
    fetchWithFallback 2 (fun i => if i = 0 then (429, "quota") else (200, "ok")) ⟨0, 0, false⟩ =
      some ([0, 1], ⟨1, 0, false⟩, ⟨200, "ok", false⟩) ∧
    didRotationOccur ⟨1, 0, false⟩ = true := by
  have h := fetchWithFallback_success_after_rotation 2 1
    (fun i => if i = 0 then (429, "quota") else (200, "ok")) ⟨0, 0, false⟩
    (by decide) (by decide) (by decide) (by decide) (by decide)
    (fun i hi => by interval_cases i; rfl) rfl
  exact ⟨by rw [h.1]; rfl, by decide⟩

/-! ## Claims C3 and C9: the streaming line loop

Structural lemmas about the line framing first: `splitNl` is never empty and
splits of concatenations recombine, which is what makes the chunk-buffering
of `transformStream` insensitive to (character-level) chunk boundaries. -/

theorem splitNl_ne_nil (l : List Char) : splitNl l ≠ [] := by
  induction l with
  | nil => simp [splitNl]
  | cons c rest ih =>
    simp only [splitNl]
    split
    · simp
    · cases h : splitNl rest <;> simp

theorem splitNl_cons_nl (l : List Char) : splitNl ('\n' :: l) = [] :: splitNl l := by
  simp [splitNl]

theorem splitNl_cons_other (c : Char) (l : List Char) (h : ¬ c = '\n') :
    splitNl (c :: l) = (c :: (splitNl l).headI) :: (splitNl l).tail := by
  simp only [splitNl, if_neg h]
  cases hl : splitNl l with
  | nil => exact absurd hl (splitNl_ne_nil l)
  | cons a as => simp

theorem lastD_cons (a : List Char) (ls : List (List Char)) (h : ls ≠ []) :
    lastD (a :: ls) = lastD ls := by
  cases ls with
  | nil => exact absurd rfl h
  | cons b bs => rfl

theorem lastD_append (xs ys : List (List Char)) (h : ys ≠ []) :
    lastD (xs ++ ys) = lastD ys := by
  induction xs with
  | nil => rfl
  | cons x xs ih =>
    rw [List.cons_append, lastD_cons x (xs ++ ys) (by simp [h]), ih]

/-- Splitting a concatenation: the complete lines of `a` stay complete, and
the trailing partial line of `a` continues into `b`. -/
theorem splitNl_append (a b : List Char) :
    splitNl (a ++ b) =
      (splitNl a).dropLast ++ splitNl (lastD (splitNl a) ++ b) := by
  induction a with
  | nil => simp [splitNl, lastD]
  | cons c a ih =>
    have hne := splitNl_ne_nil a
    by_cases hc : c = '\n'
    · subst hc
      rw [List.cons_append, splitNl_cons_nl, ih, splitNl_cons_nl,
        List.dropLast_cons_of_ne_nil hne, lastD_cons [] _ hne, List.cons_append]
    · rw [List.cons_append, splitNl_cons_other c _ hc, ih,
        splitNl_cons_other c _ hc]
      cases hsa : splitNl a with
      | nil => exact absurd hsa hne
      | cons ha ta =>
        cases ta with
        | nil =>
          simp only [List.headI_cons, List.tail_cons, List.dropLast_single,
            List.nil_append, lastD]
          rw [List.cons_append, splitNl_cons_other c (ha ++ b) hc]
        | cons h2 t2 =>
          have hta : (h2 :: t2 : List (List Char)) ≠ [] := by simp
          simp only [List.headI_cons, List.tail_cons]
          rw [List.dropLast_cons_of_ne_nil hta, List.dropLast_cons_of_ne_nil hta,
            lastD_cons ha _ hta, lastD_cons (c :: ha) _ hta, List.cons_append]
          simp

theorem processLines_append (decode : List Char → EventData) (ctx : TransformerCtx)
    (ls1 ls2 : List (List Char)) (s : LoopState) :
    processLines decode ctx s (ls1 ++ ls2) =
      ((processLines decode ctx (processLines decode ctx s ls1).1 ls2).1,
        (processLines decode ctx s ls1).2 ++
          (processLines decode ctx (processLines decode ctx s ls1).1 ls2).2) := by
  induction ls1 generalizing s with
  | nil => simp [processLines]
  | cons l ls ih => simp [processLines, ih, List.append_assoc]

/-- Feeding `a ++ b` as one chunk equals feeding `a` and then `b`. -/
theorem feedChunk_append (decode : List Char → EventData) (ctx : TransformerCtx)
    (ss : StreamState) (a b : List Char) :
    feedChunk decode ctx ss (a ++ b) =
      ((feedChunk decode ctx (feedChunk decode ctx ss a).1 b).1,
        (feedChunk decode ctx ss a).2 ++
          (feedChunk decode ctx (feedChunk decode ctx ss a).1 b).2) := by
  have hne : splitNl (lastD (splitNl (ss.buffer ++ a)) ++ b) ≠ [] := splitNl_ne_nil _
  simp only [feedChunk]
  rw [show ss.buffer ++ (a ++ b) = (ss.buffer ++ a) ++ b from (List.append_assoc _ _ _).symm,
    splitNl_append (ss.buffer ++ a) b,
    List.dropLast_append_of_ne_nil _ hne, lastD_append _ _ hne,
    processLines_append]

/-- A nonempty chunk sequence is equivalent to its concatenation. -/
theorem feedMany_eq_join (decode : List Char → EventData) (ctx : TransformerCtx) :
    ∀ (cs : List (List Char)) (c : List Char) (ss : StreamState),
      feedMany decode ctx ss (c :: cs) = feedChunk decode ctx ss (c :: cs).flatten := by
  intro cs
  induction cs with
  | nil =>
    intro c ss
    simp [feedMany, List.flatten]
  | cons c2 cs ih =>
    intro c ss
    have h1 : feedMany decode ctx ss (c :: c2 :: cs) =
        ((feedMany decode ctx (feedChunk decode ctx ss c).1 (c2 :: cs)).1,
          (feedChunk decode ctx ss c).2 ++
            (feedMany decode ctx (feedChunk decode ctx ss c).1 (c2 :: cs)).2) := rfl
    rw [h1, ih c2 (feedChunk decode ctx ss c).1,
      show ((c :: c2 :: cs).flatten : List Char) = c ++ (c2 :: cs).flatten from rfl,
      feedChunk_append]

/-- Character-level chunk invariance of the streaming transformer (the
amended content behind claim C4): any partition of the input into chunks at
character boundaries produces the same canonical frames as the whole input
in one chunk.  (At byte level the source's per-chunk `chunk.toString()`
breaks this when a multi-byte UTF-8 character straddles a chunk boundary;
see claim C4.) -/
theorem transformStream_chunk_invariant (decode : List Char → EventData)
    (ctx : TransformerCtx) (chunks : List (List Char)) :
    transformStream decode ctx chunks = transformStream decode ctx [chunks.flatten] := by
  cases chunks with
  | nil =>
    simp [transformStream, feedMany, feedChunk, List.flatten, initialStreamState,
      splitNl, processLines, lastD]
  | cons c cs =>
    simp only [transformStream]
    rw [feedMany_eq_join decode ctx cs c]
    simp [feedMany, List.flatten]

/-- Lemma: `transformEvent` flips `isDone` only on the two stream-completion event
types. -/
theorem transformEvent_isDone (ctx : TransformerCtx) (st : TransformerState)
    (eventType : String) (d : EventData)
    (h1 : eventType ≠ "response.done") (h2 : eventType ≠ "response.completed") :
    ((transformEvent ctx st eventType d).1).isDone = st.isDone := by
  simp only [transformEvent]
  by_cases c1 : eventType = "response.created"
  · rw [if_pos c1]
  rw [if_neg c1]
  by_cases c2 : eventType = "response.in_progress"
  · rw [if_pos c2]
  rw [if_neg c2]
  by_cases c3 : eventType = "response.output_text.delta" ∨ eventType = "response.text.delta" ∨
      eventType = "response.content_part.delta"
  · rw [if_pos c3]
  rw [if_neg c3]
  by_cases c4 : eventType = "response.output_text.done" ∨ eventType = "response.text.done" ∨
      eventType = "response.content_part.done"
  · rw [if_pos c4]
  rw [if_neg c4]
  by_cases c5 : (eventType = "response.content_part.added" ∨
      eventType = "response.output_item.added") ∧ isOutputTextItem (itemOrPart d) = true
  · rw [if_pos c5]
  rw [if_neg c5]
  by_cases c6 : eventType = "response.output_item.added"
  · rw [if_pos c6]
    cases d.item with
    | none => rfl
    | some it => by_cases hty : it.type = some "function_call" <;> simp [hty]
  rw [if_neg c6]
  by_cases c7 : eventType = "response.function_call_arguments.delta"
  · rw [if_pos c7]
    cases tcGet st.toolCalls d.item_id with
    | none => rfl
    | some tc => rfl
  rw [if_neg c7]
  by_cases c8 : eventType = "response.function_call_arguments.done"
  · rw [if_pos c8]
  rw [if_neg c8]
  by_cases c9 : eventType = "response.output_item.done"
  · rw [if_pos c9]
    cases d.item with
    | none => rfl
    | some it => by_cases hty : it.type = some "function_call" <;> simp [hty]
  rw [if_neg c9]
  by_cases c10 : eventType = "response.done" ∨ eventType = "response.completed"
  · rcases c10 with h | h
    · exact absurd h h1
    · exact absurd h h2
  rw [if_neg c10]

/-- The line-loop invariant behind the termination guarantee: processing a
line that does not announce a completion event keeps `isDone` false and
keeps the pending event type away from the completion events. -/
theorem processLine_preserves (decode : List Char → EventData) (ctx : TransformerCtx)
    (s : LoopState) (line : List Char)
    (hline : isCompletionEventLine line = false)
    (hcur : ∀ e, s.currentEvent = some e →
      e ≠ "response.done" ∧ e ≠ "response.completed")
    (hdone : s.tstate.isDone = false) :
    (processLine decode ctx s line).1.tstate.isDone = false ∧
    (∀ e, (processLine decode ctx s line).1.currentEvent = some e →
      e ≠ "response.done" ∧ e ≠ "response.completed") := by
  simp only [processLine]
  split
  · exact ⟨hdone, hcur⟩
  · split
    · exact ⟨hdone, hcur⟩
    · rename_i v hp
      have hv : (v = "response.done" || v = "response.completed") = false := by
        simpa [isCompletionEventLine, hp] using hline
      simp only [Bool.or_eq_false_iff, decide_eq_false_iff_not] at hv
      refine ⟨hdone, ?_⟩
      intro e he
      simp only [Option.some.injEq] at he
      subst he
      exact hv
    · rename_i raw hp
      split
      · rename_i ev hc
        split
        · exact ⟨hdone, hcur⟩
        · refine ⟨?_, by simp⟩
          show (transformEvent ctx s.tstate ev (decode raw)).1.isDone = false
          rw [transformEvent_isDone ctx s.tstate ev (decode raw)
            (hcur ev hc).1 (hcur ev hc).2]
          exact hdone
      · exact ⟨hdone, hcur⟩

/-- Iterating the invariant over a list of lines. -/
theorem processLines_preserves (decode : List Char → EventData) (ctx : TransformerCtx) :
    ∀ (ls : List (List Char)) (s : LoopState),
      (∀ l ∈ ls, isCompletionEventLine l = false) →
      (∀ e, s.currentEvent = some e →
        e ≠ "response.done" ∧ e ≠ "response.completed") →
      s.tstate.isDone = false →
      (processLines decode ctx s ls).1.tstate.isDone = false := by
  intro ls
  induction ls with
  | nil => intro s _ _ hdone; simpa [processLines] using hdone
  | cons l ls ih =>
    intro s hls hcur hdone
    have h1 := processLine_preserves decode ctx s l (hls l (by simp)) hcur hdone
    simp only [processLines]
    exact ih _ (fun l2 hl2 => hls l2 (by simp [hl2])) h1.2 h1.1

/-- Claim C3: a stream (in any chunking) that never announces a completion
event still ends with a synthesized final chunk carrying finish reason
`stop`, immediately followed by the terminal done sentinel. -/
theorem transformStream_terminates_without_completion (decode : List Char → EventData)
    (ctx : TransformerCtx) (chunks : List (List Char))
    (h : (splitNl chunks.flatten).all (fun l => ! isCompletionEventLine l) = true) :
    ∃ body, transformStream decode ctx chunks =
      body ++ [createOpenAIChunk ctx "" none true (some "stop"), Frame.doneSignal] := by
  rw [transformStream_chunk_invariant]
  have hall : ∀ l ∈ splitNl chunks.flatten, isCompletionEventLine l = false := by
    intro l hl
    simpa using List.all_eq_true.mp h l hl
  have hiso : ((processLines decode ctx ⟨none, initialTransformerState⟩
      (splitNl chunks.flatten).dropLast).1).tstate.isDone = false :=
    processLines_preserves decode ctx _ _
      (fun l hl => hall l (List.dropLast_subset _ hl)) (by simp) rfl
  have hiso2 : (feedMany decode ctx initialStreamState
      [chunks.flatten]).1.loopState.tstate.isDone = false := by
    simp only [feedMany, feedChunk, initialStreamState, List.nil_append]
    exact hiso
  refine ⟨(feedMany decode ctx initialStreamState [chunks.flatten]).2, ?_⟩
  simp only [transformStream]
  rw [if_neg (by simp [hiso2])]

/-- Witness for claim C3: a stream that ends right after a text-delta event. -/
theorem transformStream_terminates_witness :
    ∃ body,
      transformStream (fun _ => EventData.empty) ⟨"m", "chatcmpl-w", 0, 0⟩
        [("event: response.output_text.delta\ndata: hi\n").toList] =
        body ++ [createOpenAIChunk ⟨"m", "chatcmpl-w", 0, 0⟩ "" none true (some "stop"),
          Frame.doneSignal] :=
  transformStream_terminates_without_completion (fun _ => EventData.empty)
    ⟨"m", "chatcmpl-w", 0, 0⟩ _ (by decide)

/-! ## Claim C9: event/data pairing in the line loop -/

theorem dropWhile_append_singleton_ne_nil (p : Char → Bool) (xs : List Char) (c : Char)
    (hc : p c = false) : (xs ++ [c]).dropWhile p ≠ [] := by
  induction xs with
  | nil => simp [List.dropWhile, hc]
  | cons x xs ih =>
    rw [List.cons_append, List.dropWhile_cons]
    split
    · exact ih
    · simp

theorem trimChars_ne_nil (c : Char) (l : List Char) (hc : isWsChar c = false) :
    trimChars (c :: l) ≠ [] := by
  simp only [trimChars]
  rw [List.dropWhile_cons, if_neg (by simp [hc])]
  intro hnil
  rw [List.reverse_eq_nil_iff] at hnil
  rw [List.reverse_cons] at hnil
  exact dropWhile_append_singleton_ne_nil isWsChar l.reverse c hc hnil

/-- A line that parses as a `data:` line is not blank. -/
theorem parseSSELine_data_trim_ne (line raw : List Char)
    (h : parseSSELine line = some (.data raw)) : trimChars line ≠ [] := by
  simp only [parseSSELine] at h
  split at h
  · simp at h
  · split at h
    · rename_i hpre
      obtain ⟨t, ht⟩ := List.isPrefixOf_iff_prefix.mp hpre
      rw [← ht, show ("data:".toList ++ t : List Char) = 'd' :: ("ata:".toList ++ t) from rfl]
      exact trimChars_ne_nil 'd' _ (by decide)
    · simp at h

/-- Claim C9: in the line loop, a `data:` line with no pending event type
produces no output and changes nothing, and a `data:` line processed under a
truthy pending event type consumes it - the pending event type is reset to
none - with the output coming from `transformEvent`. -/
theorem line_loop_event_data_pairing (decode : List Char → EventData)
    (ctx : TransformerCtx) (s : LoopState) (line raw : List Char)
    (hparse : parseSSELine line = some (.data raw)) :
    (s.currentEvent = none → processLine decode ctx s line = (s, [])) ∧
    (∀ e, s.currentEvent = some e → e ≠ "" →
      (processLine decode ctx s line).1.currentEvent = none ∧
      (processLine decode ctx s line).2 =
        (transformEvent ctx s.tstate e (decode raw)).2) := by
  have htrim := parseSSELine_data_trim_ne line raw hparse
  simp only [processLine, hparse, if_neg htrim]
  constructor
  · intro hc
    rw [hc]
  · intro e he hene
    rw [he]
    simp [hene]

/-- Witness for claim C9: a `data:` line arriving with no pending event type
is dropped. -/
theorem line_loop_event_data_pairing_witness :
    processLine (fun _ => EventData.empty) ⟨"m", "chatcmpl-w", 0, 0⟩
      ⟨none, initialTransformerState⟩ ("data: 1").toList =
      (⟨none, initialTransformerState⟩, []) :=
  (line_loop_event_data_pairing (fun _ => EventData.empty) ⟨"m", "chatcmpl-w", 0, 0⟩
    ⟨none, initialTransformerState⟩ ("data: 1").toList ['1'] (by decide)).1 rfl

end Droid2Api
